import Mathlib

/-!
Verification of the Telegram summary bot's core services against their
specification: the bounded per-chat message history (`MessageService`), the
daily digest scheduler tick (`SummaryBot.send_scheduled_summaries`), and the
bounded image-analysis conversation buffer (`AIService`).

Times are modelled as integer seconds since the epoch; a wall-clock instant
seen by the scheduler is reduced to its calendar date and hour, which is all
the scheduler inspects.  `Except Unit` models a Python exception escaping the
translated block.
-/

namespace TgBot

/-! ## Configuration constants (`bot/config.py`) -/

def MAX_MESSAGE_HISTORY : Nat := 2000

def SUMMARY_HOURS : Int := 24

def SUMMARY_START_HOUR : Nat := 20

def SUMMARY_END_HOUR : Nat := 22

/-! ## Platform data reaching `MessageService.store_message`

Mirrors the attributes the code reads from the `python-telegram-bot` objects:
`update.effective_message`, `message.text` (optional), `message.from_user`
(optional: absent on channel posts), `message.date`, `message.message_id`. -/

structure TgUser where
  first_name : String
  id : Int
  is_bot : Bool
deriving DecidableEq, Repr

structure TgMessage where
  text : Option String
  from_user : Option TgUser
  date : Int
  message_id : Int
deriving DecidableEq, Repr

structure TgUpdate where
  effective_message : Option TgMessage
deriving DecidableEq, Repr

/-- One stored history entry, as built by `MessageService.store_message`. -/
structure MsgRecord where
  user : String
  user_id : Int
  text : String
  timestamp : Int
  message_id : Int
deriving DecidableEq, Repr

/-- The projected dictionary returned by the two query methods
(`user`, `text`, `timestamp` only). -/
structure MsgOut where
  user : String
  text : String
  timestamp : Int
deriving DecidableEq, Repr

/-- Python truthiness of an optional string: `None` and `""` are falsy. -/
def pyStrFalsy : Option String → Bool
  | none => true
  | some s => s == ""

/-- Python slice `l[-n:]` for a non-negative `n`: the last `n` elements,
except that `l[-0:]` is `l[0:]`, the whole list. -/
def pySliceLast (n : Nat) (l : List α) : List α :=
  if n = 0 then l else l.drop (l.length - n)

/-- Projection applied to each record appended by the query loops. -/
def projOut (m : MsgRecord) : MsgOut :=
  { user := m.user, text := m.text, timestamp := m.timestamp }

/-! ## `MessageService` (`bot/services/message_service.py`)

The chat history lives in `context.chat_data['message_history']`; its state is
modelled as `Option (List MsgRecord)` (`none` = key absent).  `now` is the
current clock reading in seconds; a cutoff `datetime.now() - timedelta(hours=h)`
becomes `now - h * 3600`. -/

/-- `MessageService.get_recent_messages` (lines 48-75). -/
def get_recent_messages (now : Int) (hours : Int) (limit : Nat)
    (history : Option (List MsgRecord)) : List MsgOut :=
  let cutoff := now - hours * 3600
  let stored := history.getD []
  ((pySliceLast limit stored).filter (fun m => decide (cutoff ≤ m.timestamp))).map projOut

/-- `MessageService.get_user_messages` (lines 137-164).  The guard `if hours:`
is Python truthiness: `None` and `0` both skip the cutoff computation. -/
def get_user_messages (now : Int) (user_id : Int) (hours : Option Int)
    (limit : Nat) (history : Option (List MsgRecord)) : List MsgOut :=
  let cutoff : Option Int :=
    match hours with
    | some h => if h = 0 then none else some (now - h * 3600)
    | none => none
  let stored := history.getD []
  if stored.isEmpty then []
  else
    ((pySliceLast limit stored).filter
        (fun m =>
          m.user_id == user_id &&
            (match cutoff with
             | some c => decide (c ≤ m.timestamp)
             | none => true))).map projOut

/-- `MessageService.store_message` (lines 78-110).  `Except.error ()` models an
uncaught Python exception: when the message has truthy text but no author, the
guard evaluates `message.from_user.is_bot` on `None` and raises
`AttributeError`. -/
def store_message (update : TgUpdate) (history : Option (List MsgRecord)) :
    Except Unit (Option (List MsgRecord)) :=
  match update.effective_message with
  | none => .ok history
  | some m =>
    match m.text with
    | none => .ok history
    | some t =>
      if t = "" then .ok history
      else
        match m.from_user with
        | none => .error ()
        | some u =>
          if u.is_bot then .ok history
          else
            let stored := history.getD [] ++
              [{ user := u.first_name, user_id := u.id, text := t,
                 timestamp := m.date, message_id := m.message_id : MsgRecord }]
            if MAX_MESSAGE_HISTORY < stored.length then
              .ok (some (pySliceLast MAX_MESSAGE_HISTORY stored))
            else
              .ok (some stored)

/-- An update that `store_message` actually appends: it has a message with
non-empty text and a non-bot author. -/
def storable (u : TgUpdate) : Bool :=
  match u.effective_message with
  | none => false
  | some m =>
    match m.text, m.from_user with
    | some t, some usr => !(t == "") && !usr.is_bot
    | _, _ => false

/-- The record `store_message` builds for a storable update. -/
def recordOf (u : TgUpdate) : MsgRecord :=
  match u.effective_message with
  | some m =>
    { user := (m.from_user.map TgUser.first_name).getD ""
      user_id := (m.from_user.map TgUser.id).getD 0
      text := m.text.getD ""
      timestamp := m.date
      message_id := m.message_id }
  | none => { user := "", user_id := 0, text := "", timestamp := 0, message_id := 0 }

/-- A sequence of `store_message` calls on one chat's history. -/
def store_fold (updates : List TgUpdate) (history : Option (List MsgRecord)) :
    Except Unit (Option (List MsgRecord)) :=
  updates.foldlM (fun h u => store_message u h) history

/-- Modelled on the spec's wording for `query(now, window, limit)` (§4.1): take
the `limit` most-recent records from the tail, then apply the time filter,
preserving insertion order, then project. -/
def query_spec (now hours : Int) (limit : Nat) (stored : List MsgRecord) : List MsgOut :=
  ((stored.rtake limit).filter (fun m => decide (now - hours * 3600 ≤ m.timestamp))).map projOut

/-! ## Scheduler tick (`SummaryBot.send_scheduled_summaries`, `bot/main.py` 142-186)

A tick inspects only the current calendar date and hour. -/

/-- The fields of `datetime.now(SUMMARY_TIMEZONE)` the tick reads:
`now.date()` (encoded as an integer day index) and `now.hour`. -/
structure Tm where
  date : Int
  hour : Nat
deriving DecidableEq, Repr

/-- Outcomes of the external calls one chat's loop iteration makes.
`get_chat` and `send_ok` may raise (`.error ()`); `get_recent_messages` and
`generate_summary` cannot (the latter converts its own failures to a string
internally). -/
structure ChatEnv where
  get_chat : Except Unit Unit
  messages : List MsgOut
  summary : String
  send_ok : Except Unit Unit

/-- The window guard `SUMMARY_START_HOUR <= now.hour < SUMMARY_END_HOUR`. -/
def in_summary_window (now : Tm) : Bool :=
  decide (SUMMARY_START_HOUR ≤ now.hour) && decide (now.hour < SUMMARY_END_HOUR)

/-- The idempotence guard `last_summary and last_summary.date() == now.date()`. -/
def sent_today (now : Tm) (last_summary : Option Tm) : Bool :=
  match last_summary with
  | some l => l.date == now.date
  | none => false

/-- A digest send is attempted (the iteration proceeds past the idempotence
guard into fetching and sending) exactly when `sent_today` fails. -/
def digest_attempted (now : Tm) (last_summary : Option Tm) : Bool :=
  !sent_today now last_summary

/-- Body of the per-chat `try:` block: returns the new `last_summary` value and
whether a digest message was sent; `.error ()` models an exception escaping the
block. -/
def chat_tick_body (now : Tm) (env : ChatEnv) (last_summary : Option Tm) :
    Except Unit (Option Tm × Bool) :=
  if sent_today now last_summary then .ok (last_summary, false)
  else do
    _ ← env.get_chat
    if env.messages.isEmpty then pure (last_summary, false)
    else do
      _ ← env.send_ok
      pure (some now, true)

/-- One chat's loop iteration with its `except Exception` handler: a failure is
caught and leaves the chat's digest state unchanged. -/
def chat_tick (now : Tm) (env : ChatEnv) (last_summary : Option Tm) : Option Tm × Bool :=
  match chat_tick_body now env last_summary with
  | .ok r => r
  | .error _ => (last_summary, false)

/-- One full scheduler tick over the active-chats list: outside the window
nothing is processed; inside it every chat is processed independently. -/
def send_scheduled_summaries (now : Tm) (chats : List (ChatEnv × Option Tm)) :
    List (Option Tm × Bool) :=
  if in_summary_window now then
    chats.map (fun c => chat_tick now c.1 c.2)
  else
    chats.map (fun c => (c.2, false))

/-! ## `AIService` image-conversation buffer (`bot/services/ai_service.py`) -/

def MAX_IMAGE_CONVERSATION_TURNS : Nat := 15

/-- One content item of a history entry (the `{"type": ..., "text": ...}`
dictionaries the code appends). -/
structure ContentItem where
  type : String
  text : String
deriving DecidableEq, Repr

/-- One entry of an image-analysis conversation history. -/
structure HistEntry where
  role : String
  content : List ContentItem
deriving DecidableEq, Repr

/-- The registry `AIService._image_conversation_histories`, an insertion-ordered
dictionary from conversation id to buffer. -/
abbrev ImageRegistry := List (String × List HistEntry)

def regLookup (reg : ImageRegistry) (id : String) : Option (List HistEntry) :=
  (reg.find? (fun p => p.1 == id)).map Prod.snd

def regSet (reg : ImageRegistry) (id : String) (buf : List HistEntry) : ImageRegistry :=
  if (reg.find? (fun p => p.1 == id)).isSome then
    reg.map (fun p => if p.1 == id then (p.1, buf) else p)
  else
    reg ++ [(id, buf)]

def regPop (reg : ImageRegistry) (id : String) : ImageRegistry :=
  reg.filter (fun p => !(p.1 == id))

/-- `AIService._get_image_history`: returns the stored buffer, creating an
empty one in the registry when the id is absent. -/
def get_image_history (reg : ImageRegistry) (id : String) :
    ImageRegistry × List HistEntry :=
  match regLookup reg id with
  | some buf => (reg, buf)
  | none => (regSet reg id [], [])

/-- `AIService.reset_image_conversation`: `pop(conversation_id, None)`. -/
def reset_image_conversation (reg : ImageRegistry) (conversation_id : String) :
    ImageRegistry :=
  regPop reg conversation_id

/-- The buffer contents observable for an id (`[]` when absent). -/
def histContents (reg : ImageRegistry) (id : String) : List HistEntry :=
  (regLookup reg id).getD []

/-- `collections.deque(maxlen = n).append`: evicts from the head once the
length would exceed `maxlen`. -/
def dequeAppend (maxlen : Nat) (buf : List α) (x : α) : List α :=
  let grown := buf ++ [x]
  if maxlen < grown.length then grown.drop (grown.length - maxlen) else grown

def IMAGE_ANALYSIS_APOLOGY : String := "Sorry, I couldn't analyze the image at this time."

def NO_INSTRUCTIONS_PLACEHOLDER : String := "(no additional instructions provided)"

/-- The recorded prompt text: the stripped user instructions, the placeholder
when empty, truncated to 2000 characters with an ellipsis. -/
def trimmed_prompt (instructions : String) : String :=
  let user_prompt := instructions.trim
  let record_prompt := if user_prompt == "" then NO_INSTRUCTIONS_PLACEHOLDER else user_prompt
  if record_prompt.length ≤ 2000 then record_prompt else record_prompt.take 2000 ++ "..."

/-- The user-role entry `analyze_image` appends after a successful analysis. -/
def userEntry (instructions : String) : HistEntry :=
  { role := "user"
    content :=
      [{ type := "input_text", text := "User prompt: " ++ trimmed_prompt instructions },
       { type := "input_text", text := "[Image reference omitted; consult original message.]" }] }

/-- The assistant-role entry `analyze_image` appends after a successful analysis. -/
def assistantEntry (analysis_text : String) : HistEntry :=
  { role := "assistant", content := [{ type := "output_text", text := analysis_text }] }

/-- `AIService.analyze_image` (lines 346-474), with the remote responses call
abstracted by `api`: `.error ()` models the call raising or timing out, and
`.ok raw` a response whose extracted output text is `raw`.  The snapshot taken
before the call creates the registry entry when absent; an empty stripped
analysis raises `ValueError`, caught like every other failure by the
surrounding handler, which returns the apology string. -/
def analyze_image (api : Except Unit String) (instructions : String)
    (conversation_id : String) (reg : ImageRegistry) : String × ImageRegistry :=
  let snapped := get_image_history reg conversation_id
  match api with
  | .error _ => (IMAGE_ANALYSIS_APOLOGY, snapped.1)
  | .ok raw =>
    let analysis_text := raw.trim
    if analysis_text == "" then (IMAGE_ANALYSIS_APOLOGY, snapped.1)
    else
      let fetched := get_image_history snapped.1 conversation_id
      let cap := MAX_IMAGE_CONVERSATION_TURNS * 2
      let buf :=
        dequeAppend cap (dequeAppend cap fetched.2 (userEntry instructions))
          (assistantEntry analysis_text)
      (analysis_text, regSet fetched.1 conversation_id buf)

/-- Whether the abstracted model call counts as failed for `analyze_image`:
the call raised, or it yielded an empty (after stripping) analysis text. -/
def api_failed (api : Except Unit String) : Bool :=
  match api with
  | .error _ => true
  | .ok raw => raw.trim == ""

/-- A sequence of successful `analyze_image` calls for one conversation id,
call `c` carrying instructions `c.1` and raw model output `c.2`. -/
def analyze_fold (calls : List (String × String)) (conversation_id : String)
    (reg : ImageRegistry) : ImageRegistry :=
  calls.foldl (fun r c => (analyze_image (.ok c.2) c.1 conversation_id r).2) reg

/-- The turn-pair a successful call appends. -/
def turnPair (c : String × String) : List HistEntry :=
  [userEntry c.1, assistantEntry c.2.trim]

/-- Entries alternate roles user, assistant, user, assistant, … starting with
user (and pair off completely). -/
def rolesAlternate : List HistEntry → Bool
  | [] => true
  | [_] => false
  | u :: a :: rest => u.role == "user" && a.role == "assistant" && rolesAlternate rest

/-- The guard of `store_message` can evaluate `message.from_user.is_bot`
without raising: either the message is skipped before that access (absent
message or falsy text), or an author is present. -/
def author_accessible (u : TgUpdate) : Bool :=
  match u.effective_message with
  | none => true
  | some m => pyStrFalsy m.text || m.from_user.isSome

/-! ## Concrete sample inputs -/

def sampleRecord : MsgRecord :=
  { user := "alice", user_id := 1, text := "hi", timestamp := 100, message_id := 1 }

def sampleUpdate1 : TgUpdate :=
  { effective_message := some
      { text := some "hi", from_user := some { first_name := "alice", id := 1, is_bot := false },
        date := 10, message_id := 1 } }

def sampleUpdate2 : TgUpdate :=
  { effective_message := some
      { text := some "yo", from_user := some { first_name := "bob", id := 2, is_bot := false },
        date := 11, message_id := 2 } }

/-- A channel-post-like update: a message with text but no author. -/
def authorlessUpdate : TgUpdate :=
  { effective_message := some
      { text := some "hello", from_user := none, date := 0, message_id := 1 } }

def sampleUpdates : List TgUpdate := [sampleUpdate1, sampleUpdate2]

def sampleCalls : List (String × String) := List.replicate 16 ("p", "a")

def sampleEnvOk : ChatEnv :=
  { get_chat := .ok (), messages := [{ user := "alice", text := "hi", timestamp := 100 }],
    summary := "s", send_ok := .ok () }

def sampleEnvFail : ChatEnv :=
  { get_chat := .error (), messages := [], summary := "", send_ok := .ok () }

def tmEight : Tm := { date := 0, hour := 20 }

def sampleReg : ImageRegistry := [("a", [assistantEntry "x"])]

/-! ## Helper lemmas about suffixes (`List.rtake`) and the embedded operations -/

theorem rtake_of_length_le {l : List α} {n : Nat} (h : l.length ≤ n) : l.rtake n = l := by
  simp [List.rtake, Nat.sub_eq_zero_of_le h]

theorem length_rtake (n : Nat) (l : List α) : (l.rtake n).length = min n l.length := by
  simp only [List.rtake, List.length_drop]
  omega

theorem rtake_append_absorb (n : Nat) (x y : List α) :
    (x.rtake n ++ y).rtake n = (x ++ y).rtake n := by
  simp only [List.rtake_eq_reverse_take_reverse, List.reverse_append, List.reverse_reverse]
  congr 1
  rw [List.take_append_eq_append_take, List.take_append_eq_append_take, List.take_take]
  have hmin : min (n - y.reverse.length) n = n - y.reverse.length := by omega
  rw [hmin]

theorem pySliceLast_eq_rtake {n : Nat} (h : n ≠ 0) (l : List α) :
    pySliceLast n l = l.rtake n := by
  simp [pySliceLast, List.rtake, h]

theorem pySliceLast_nil (n : Nat) : pySliceLast n ([] : List α) = [] := by
  simp [pySliceLast]

theorem dequeAppend_eq_rtake (n : Nat) (buf : List α) (x : α) :
    dequeAppend n buf x = (buf ++ [x]).rtake n := by
  simp only [dequeAppend, List.rtake]
  split
  · rfl
  · next h => rw [Nat.sub_eq_zero_of_le (Nat.le_of_not_lt h), List.drop_zero]

theorem store_message_eq_of_storable (u : TgUpdate) (h : storable u = true)
    (history : Option (List MsgRecord)) :
    store_message u history =
      .ok (some ((history.getD [] ++ [recordOf u]).rtake MAX_MESSAGE_HISTORY)) := by
  rcases u with ⟨msg⟩
  cases msg with
  | none => simp [storable] at h
  | some m =>
    rcases m with ⟨t?, u?, d, mid⟩
    cases t? with
    | none => simp [storable] at h
    | some t =>
      cases u? with
      | none => simp [storable] at h
      | some usr =>
        simp only [storable, Bool.and_eq_true, Bool.not_eq_true', beq_eq_false_iff_ne,
          ne_eq] at h
        obtain ⟨ht, hb⟩ := h
        simp [store_message, recordOf, ht, hb]
        split
        · next hlen =>
          rw [pySliceLast_eq_rtake (show MAX_MESSAGE_HISTORY ≠ 0 by decide)]
        · next hlen =>
          rw [rtake_of_length_le (by
            simp only [List.length_append, List.length_cons, List.length_nil]
            omega)]

theorem store_fold_some (updates : List TgUpdate) (h : ∀ u ∈ updates, storable u = true) :
    ∀ l : List MsgRecord, l.length ≤ MAX_MESSAGE_HISTORY →
      store_fold updates (some l) =
        .ok (some ((l ++ updates.map recordOf).rtake MAX_MESSAGE_HISTORY)) := by
  induction updates with
  | nil =>
    intro l hl
    simp only [store_fold, List.foldlM_nil, List.map_nil, List.append_nil]
    rw [rtake_of_length_le hl]
    rfl
  | cons u us ih =>
    intro l hl
    have hu : storable u = true := h u (List.mem_cons_self u us)
    have hrest : ∀ v ∈ us, storable v = true := fun v hv => h v (List.mem_cons_of_mem u hv)
    have hstep := store_message_eq_of_storable u hu (some l)
    simp only [Option.getD_some] at hstep
    have : store_fold (u :: us) (some l) =
        store_fold us (some ((l ++ [recordOf u]).rtake MAX_MESSAGE_HISTORY)) := by
      simp only [store_fold, List.foldlM_cons, hstep]
      rfl
    rw [this, ih hrest _ (by rw [length_rtake]; omega)]
    rw [rtake_append_absorb, List.append_assoc]
    rfl

theorem regLookup_nil (id : String) : regLookup [] id = none := rfl

theorem regLookup_cons_of_pos (p : String × List HistEntry) {id : String}
    (h : p.1 = id) (reg : ImageRegistry) :
    regLookup (p :: reg) id = some p.2 := by
  unfold regLookup
  rw [List.find?_cons_of_pos _ (by simpa using h)]
  rfl

theorem regLookup_cons_of_neg (p : String × List HistEntry) {id : String}
    (h : ¬ p.1 = id) (reg : ImageRegistry) :
    regLookup (p :: reg) id = regLookup reg id := by
  unfold regLookup
  rw [List.find?_cons_of_neg _ (by simpa using h)]

theorem regLookup_regSet_self (reg : ImageRegistry) (id : String) (buf : List HistEntry) :
    regLookup (regSet reg id buf) id = some buf := by
  unfold regSet
  split
  · next hf =>
    induction reg with
    | nil => simp at hf
    | cons p reg ih =>
      by_cases hp : p.1 = id
      · rw [List.map_cons, if_pos (by simpa using hp),
          regLookup_cons_of_pos (p.1, buf) hp]
      · rw [List.map_cons, if_neg (by simpa using hp), regLookup_cons_of_neg p hp]
        refine ih ?_
        rwa [List.find?_cons_of_neg _ (by simpa using hp)] at hf
  · next hf =>
    have hnone : reg.find? (fun q => q.1 == id) = none :=
      Option.not_isSome_iff_eq_none.mp (by simpa using hf)
    unfold regLookup
    rw [List.find?_append, hnone]
    simp

theorem regLookup_map_set_other (reg : ImageRegistry) {id id' : String}
    (h : id' ≠ id) (buf : List HistEntry) :
    regLookup (reg.map (fun p => if p.1 == id then (p.1, buf) else p)) id'
      = regLookup reg id' := by
  have hne : ¬ id = id' := fun hh => h hh.symm
  induction reg with
  | nil => rfl
  | cons p reg ih =>
    by_cases hp : p.1 = id
    · rw [List.map_cons, if_pos (by simpa using hp),
        regLookup_cons_of_neg (p.1, buf) (by simpa [hp] using hne),
        regLookup_cons_of_neg p (by simpa [hp] using hne)]
      exact ih
    · rw [List.map_cons, if_neg (by simpa using hp)]
      by_cases hq : p.1 = id'
      · rw [regLookup_cons_of_pos p hq, regLookup_cons_of_pos p hq]
      · rw [regLookup_cons_of_neg p hq, regLookup_cons_of_neg p hq]
        exact ih

theorem regLookup_regSet_other (reg : ImageRegistry) {id id' : String}
    (h : id' ≠ id) (buf : List HistEntry) :
    regLookup (regSet reg id buf) id' = regLookup reg id' := by
  have hne : ¬ id = id' := fun hh => h hh.symm
  unfold regSet
  split
  · exact regLookup_map_set_other reg h buf
  · unfold regLookup
    rw [List.find?_append]
    simp [hne]

theorem regLookup_regPop_self (reg : ImageRegistry) (id : String) :
    regLookup (regPop reg id) id = none := by
  induction reg with
  | nil => rfl
  | cons p reg ih =>
    by_cases hp : p.1 = id
    · rw [regPop, List.filter_cons, if_neg (by simpa using hp)]
      exact ih
    · rw [regPop, List.filter_cons, if_pos (by simpa using hp), regLookup_cons_of_neg p hp]
      exact ih

theorem regLookup_regPop_other (reg : ImageRegistry) {id id' : String} (h : id' ≠ id) :
    regLookup (regPop reg id) id' = regLookup reg id' := by
  induction reg with
  | nil => rfl
  | cons p reg ih =>
    by_cases hp : p.1 = id
    · rw [regPop, List.filter_cons, if_neg (by simpa using hp),
        regLookup_cons_of_neg p (by simpa [hp] using fun hh => h hh.symm)]
      exact ih
    · rw [regPop, List.filter_cons, if_pos (by simpa using hp)]
      by_cases hq : p.1 = id'
      · rw [regLookup_cons_of_pos p hq, regLookup_cons_of_pos p hq]
      · rw [regLookup_cons_of_neg p hq, regLookup_cons_of_neg p hq]
        exact ih

theorem get_image_history_snd (reg : ImageRegistry) (id : String) :
    (get_image_history reg id).2 = histContents reg id := by
  unfold get_image_history histContents
  cases h : regLookup reg id <;> simp [h]

theorem histContents_get_image_history (reg : ImageRegistry) (id id' : String) :
    histContents (get_image_history reg id).1 id' = histContents reg id' := by
  unfold get_image_history
  cases h : regLookup reg id with
  | some buf => rfl
  | none =>
    by_cases hid : id' = id
    · subst hid
      simp [histContents, regLookup_regSet_self, h]
    · simp [histContents, regLookup_regSet_other reg hid]

theorem regLookup_get_image_history_self (reg : ImageRegistry) (id : String) :
    regLookup (get_image_history reg id).1 id = some (histContents reg id) := by
  unfold get_image_history
  cases h : regLookup reg id with
  | some buf => simp [histContents, h]
  | none => simp [histContents, regLookup_regSet_self, h]

theorem regLookup_get_image_history_other (reg : ImageRegistry) {id id' : String}
    (h : id' ≠ id) :
    regLookup (get_image_history reg id).1 id' = regLookup reg id' := by
  unfold get_image_history
  cases hx : regLookup reg id with
  | some buf => rfl
  | none => simp [regLookup_regSet_other reg h]

theorem dequeAppend_pair (cap : Nat) (buf : List α) (u a : α) :
    dequeAppend cap (dequeAppend cap buf u) a = (buf ++ [u, a]).rtake cap := by
  rw [dequeAppend_eq_rtake, dequeAppend_eq_rtake, rtake_append_absorb, List.append_assoc]
  rfl

theorem analyze_image_success_contents (raw instructions cid : String)
    (reg : ImageRegistry) (h : ¬ raw.trim = "") :
    (analyze_image (.ok raw) instructions cid reg).1 = raw.trim ∧
    histContents (analyze_image (.ok raw) instructions cid reg).2 cid
      = (histContents reg cid ++ [userEntry instructions, assistantEntry raw.trim]).rtake
          (MAX_IMAGE_CONVERSATION_TURNS * 2) ∧
    (∀ id', id' ≠ cid →
        regLookup (analyze_image (.ok raw) instructions cid reg).2 id'
          = regLookup reg id') := by
  have hbe : (raw.trim == "") = false := by simpa using h
  have hfetch0 : ∀ r : ImageRegistry, regLookup r cid = some (histContents reg cid) →
      get_image_history r cid = (r, histContents reg cid) := by
    intro r hr
    unfold get_image_history
    rw [hr]
  have hfetch : get_image_history (get_image_history reg cid).1 cid
      = ((get_image_history reg cid).1, histContents reg cid) :=
    hfetch0 _ (regLookup_get_image_history_self reg cid)
  refine ⟨by simp [analyze_image, hbe], ?_, ?_⟩
  · simp only [analyze_image, hbe, Bool.false_eq_true, if_false, hfetch]
    rw [histContents, regLookup_regSet_self, Option.getD_some, dequeAppend_pair]
  · intro id' hid
    simp only [analyze_image, hbe, Bool.false_eq_true, if_false, hfetch]
    rw [regLookup_regSet_other _ hid, regLookup_get_image_history_other reg hid]

theorem analyze_fold_contents (calls : List (String × String)) (cid : String) :
    ∀ reg : ImageRegistry, (∀ c ∈ calls, ¬ c.2.trim = "") →
      (histContents reg cid).length ≤ MAX_IMAGE_CONVERSATION_TURNS * 2 →
      histContents (analyze_fold calls cid reg) cid
        = (histContents reg cid ++ calls.flatMap turnPair).rtake
            (MAX_IMAGE_CONVERSATION_TURNS * 2) := by
  induction calls with
  | nil =>
    intro reg _ hlen
    simp only [analyze_fold, List.foldl_nil, List.flatMap_nil, List.append_nil]
    rw [rtake_of_length_le hlen]
  | cons c cs ih =>
    intro reg hne hlen
    have hc : ¬ c.2.trim = "" := hne c (List.mem_cons_self c cs)
    have hcs : ∀ d ∈ cs, ¬ d.2.trim = "" := fun d hd => hne d (List.mem_cons_of_mem c hd)
    have hstep := (analyze_image_success_contents c.2 c.1 cid reg hc).2.1
    have hfold : analyze_fold (c :: cs) cid reg
        = analyze_fold cs cid (analyze_image (.ok c.2) c.1 cid reg).2 := rfl
    rw [hfold, ih _ hcs (by rw [hstep, length_rtake]; omega), hstep,
      rtake_append_absorb, List.append_assoc]
    rfl

theorem length_flatMap_turnPair (l : List (String × String)) :
    (l.flatMap turnPair).length = 2 * l.length := by
  induction l with
  | nil => rfl
  | cons c cs ih =>
    simp only [List.flatMap_cons, List.length_append, ih, List.length_cons]
    simp [turnPair]
    omega

theorem drop_two_mul_flatMap_turnPair (l : List (String × String)) :
    ∀ m : Nat, (l.flatMap turnPair).drop (2 * m) = (l.drop m).flatMap turnPair := by
  induction l with
  | nil => intro m; simp
  | cons c cs ih =>
    intro m
    cases m with
    | zero => simp
    | succ m =>
      have h2 : 2 * (m + 1) = 2 * m + 1 + 1 := by omega
      show (turnPair c ++ cs.flatMap turnPair).drop (2 * (m + 1)) = _
      rw [h2, turnPair, List.cons_append, List.cons_append, List.nil_append,
        List.drop_succ_cons, List.drop_succ_cons, ih m, List.drop_succ_cons]

theorem rtake_flatMap_turnPair (l : List (String × String)) (k : Nat) :
    (l.flatMap turnPair).rtake (2 * k) = (l.rtake k).flatMap turnPair := by
  unfold List.rtake
  rw [length_flatMap_turnPair]
  have h2 : 2 * l.length - 2 * k = 2 * (l.length - k) := by omega
  rw [h2, drop_two_mul_flatMap_turnPair]

theorem rolesAlternate_flatMap (l : List (String × String)) :
    rolesAlternate (l.flatMap turnPair) = true := by
  induction l with
  | nil => rfl
  | cons c cs ih =>
    simp only [List.flatMap_cons, turnPair, List.cons_append, List.nil_append]
    simpa [rolesAlternate, userEntry, assistantEntry] using ih

/-! ## Claim theorems -/

/-- Claim C1: for every sequence of `store_message` calls whose stored updates
have non-empty text and non-bot authors, the chat's history always has length
≤ `MAX_MESSAGE_HISTORY` (2000), and after any such sequence it contains exactly
the `min n 2000` most recently appended records in insertion order, oldest
evicted first. -/
theorem store_message_bounded_fifo (updates : List TgUpdate)
    (h : ∀ u ∈ updates, storable u = true) :
    (∀ k : Nat, ∃ hist : Option (List MsgRecord),
        store_fold (updates.take k) none = .ok hist ∧
        hist.getD [] = ((updates.take k).map recordOf).rtake MAX_MESSAGE_HISTORY ∧
        (hist.getD []).length ≤ MAX_MESSAGE_HISTORY) ∧
    ((updates.map recordOf).rtake MAX_MESSAGE_HISTORY).length
      = min updates.length MAX_MESSAGE_HISTORY := by
  constructor
  · intro k
    have htk : ∀ v ∈ updates.take k, storable v = true :=
      fun v hv => h v ((List.take_sublist k updates).subset hv)
    cases hk : updates.take k with
    | nil =>
      refine ⟨none, by simp [store_fold]; rfl, by simp, by simp⟩
    | cons u us =>
      rw [hk] at htk
      have hu : storable u = true := htk u (List.mem_cons_self u us)
      have hrest : ∀ v ∈ us, storable v = true :=
        fun v hv => htk v (List.mem_cons_of_mem u hv)
      refine ⟨some (((u :: us).map recordOf).rtake MAX_MESSAGE_HISTORY), ?_, by simp, ?_⟩
      · have hstep := store_message_eq_of_storable u hu none
        simp only [Option.getD_none, List.nil_append] at hstep
        calc store_fold (u :: us) none
            = store_fold us (some ([recordOf u].rtake MAX_MESSAGE_HISTORY)) := by
              simp only [store_fold, List.foldlM_cons, hstep]
              rfl
          _ = .ok (some ((([recordOf u].rtake MAX_MESSAGE_HISTORY) ++
                us.map recordOf).rtake MAX_MESSAGE_HISTORY)) :=
              store_fold_some us hrest _ (by rw [length_rtake]; omega)
          _ = .ok (some (((u :: us).map recordOf).rtake MAX_MESSAGE_HISTORY)) := by
              rw [rtake_append_absorb]
              simp
      · simp only [Option.getD_some]
        rw [length_rtake]
        omega
  · rw [length_rtake, List.length_map]
    omega

/-- Witness for C1 at a concrete two-update sequence. -/
theorem store_message_bounded_fifo_witness :
    (∀ u ∈ sampleUpdates, storable u = true) ∧
    ((∀ k : Nat, ∃ hist : Option (List MsgRecord),
        store_fold (sampleUpdates.take k) none = .ok hist ∧
        hist.getD [] = ((sampleUpdates.take k).map recordOf).rtake MAX_MESSAGE_HISTORY ∧
        (hist.getD []).length ≤ MAX_MESSAGE_HISTORY) ∧
      ((sampleUpdates.map recordOf).rtake MAX_MESSAGE_HISTORY).length
        = min sampleUpdates.length MAX_MESSAGE_HISTORY) :=
  ⟨by decide, store_message_bounded_fifo sampleUpdates (by decide)⟩

/-- Claim C2 counterexample: with `limit = 0`, the Python slice `[-0:]` selects
the whole history, so `get_recent_messages` returns more than `limit` records
on a one-record in-window history. -/
theorem get_recent_messages_limit_zero_cex :
    ¬ ((get_recent_messages 100 1 0 (some [sampleRecord])).length ≤ 0) := by
  decide

/-- Claim C2 (amended to positive limits): for every history, `now`, window and
`limit ≥ 1`, `get_recent_messages` returns at most `limit` records, every
returned record has `timestamp ≥ now - hours`, the result is an
insertion-ordered subselection of the projected history, and it equals the
spec's limit-from-the-tail-then-time-filter query. -/
theorem get_recent_messages_query_spec (now hours : Int) (limit : Nat)
    (history : Option (List MsgRecord)) (hpos : 1 ≤ limit) :
    (get_recent_messages now hours limit history).length ≤ limit ∧
    (∀ r ∈ get_recent_messages now hours limit history,
        now - hours * 3600 ≤ r.timestamp) ∧
    List.Sublist (get_recent_messages now hours limit history)
      ((history.getD []).map projOut) ∧
    get_recent_messages now hours limit history
      = query_spec now hours limit (history.getD []) := by
  have hslice : pySliceLast limit (history.getD []) = (history.getD []).rtake limit :=
    pySliceLast_eq_rtake (by omega) _
  refine ⟨?_, ?_, ?_, ?_⟩
  · simp only [get_recent_messages, hslice, List.length_map]
    calc (List.filter _ ((history.getD []).rtake limit)).length
        ≤ ((history.getD []).rtake limit).length := List.length_filter_le _ _
      _ ≤ limit := by rw [length_rtake]; omega
  · intro r hr
    simp only [get_recent_messages, List.mem_map, List.mem_filter] at hr
    obtain ⟨m, ⟨_, hts⟩, rfl⟩ := hr
    simpa [projOut] using hts
  · simp only [get_recent_messages]
    refine List.Sublist.map projOut ?_
    refine (List.filter_sublist _).trans ?_
    rw [hslice]
    exact List.drop_sublist _ _
  · simp only [get_recent_messages, query_spec, hslice]

/-- Witness for the amended C2 at a concrete input. -/
theorem get_recent_messages_query_spec_witness :
    (1 ≤ 1) ∧
    ((get_recent_messages 100 1 1 (some [sampleRecord])).length ≤ 1 ∧
      (∀ r ∈ get_recent_messages 100 1 1 (some [sampleRecord]),
          (100 : Int) - 1 * 3600 ≤ r.timestamp) ∧
      List.Sublist (get_recent_messages 100 1 1 (some [sampleRecord]))
        (((some [sampleRecord] : Option (List MsgRecord)).getD []).map projOut) ∧
      get_recent_messages 100 1 1 (some [sampleRecord])
        = query_spec 100 1 1 ((some [sampleRecord] : Option (List MsgRecord)).getD [])) :=
  ⟨by decide, get_recent_messages_query_spec 100 1 1 (some [sampleRecord]) (by decide)⟩

/-- Claim C3: on an in-window tick, a digest send is attempted for a chat iff
its recorded last-summary date differs from the current calendar date (an
absent record counts as differing); when not attempted the iteration is a
no-op; after a successful send a second same-day in-window tick performs zero
sends; after the date rolls over the chat is eligible again; and a chat whose
recorded date equals today's never sends — at most one digest per chat per
calendar day. -/
theorem scheduled_summary_daily_idempotent (now : Tm) (last : Option Tm)
    (hwin : in_summary_window now = true) :
    (digest_attempted now last = true ↔ ¬ ∃ l, last = some l ∧ l.date = now.date) ∧
    (digest_attempted now last = false →
        ∀ env, chat_tick now env last = (last, false)) ∧
    (∀ env now₂ env₂, chat_tick now env last = (some now, true) →
        now₂.date = now.date → in_summary_window now₂ = true →
        chat_tick now₂ env₂ (some now) = (some now, false)) ∧
    (∀ now₃ : Tm, now₃.date ≠ now.date → digest_attempted now₃ (some now) = true) ∧
    (∀ env l, last = some l → l.date = now.date → (chat_tick now env last).2 = false) := by
  refine ⟨?_, ?_, ?_, ?_, ?_⟩
  · cases last with
    | none => simp [digest_attempted, sent_today]
    | some l => simp [digest_attempted, sent_today]
  · intro hatt env
    have hsent : sent_today now last = true := by
      simpa [digest_attempted] using hatt
    simp [chat_tick, chat_tick_body, hsent]
  · intro env now₂ env₂ _ hdate hwin₂
    have hsent : sent_today now₂ (some now) = true := by
      simp [sent_today, hdate]
    simp [chat_tick, chat_tick_body, hsent]
  · intro now₃ hne
    simp only [digest_attempted, sent_today, Bool.not_eq_true', beq_eq_false_iff_ne, ne_eq]
    exact fun hh => hne hh.symm
  · rintro env l rfl hdate
    simp [chat_tick, chat_tick_body, sent_today, hdate]

/-- Witness for C3 at a concrete in-window time with no recorded summary. -/
theorem scheduled_summary_daily_idempotent_witness :
    (in_summary_window tmEight = true) ∧
    ((digest_attempted tmEight none = true ↔
        ¬ ∃ l, (none : Option Tm) = some l ∧ l.date = tmEight.date) ∧
      (digest_attempted tmEight none = false →
          ∀ env, chat_tick tmEight env none = (none, false)) ∧
      (∀ env now₂ env₂, chat_tick tmEight env none = (some tmEight, true) →
          now₂.date = tmEight.date → in_summary_window now₂ = true →
          chat_tick now₂ env₂ (some tmEight) = (some tmEight, false)) ∧
      (∀ now₃ : Tm, now₃.date ≠ tmEight.date →
          digest_attempted now₃ (some tmEight) = true) ∧
      (∀ env l, (none : Option Tm) = some l → l.date = tmEight.date →
          (chat_tick tmEight env none).2 = false)) :=
  ⟨by decide, scheduled_summary_daily_idempotent tmEight none (by decide)⟩

/-- Claim C5: within one tick, a chat whose loop body raises is caught in its
own iteration — its digest state is unchanged and no send happens — and every
other chat in the active list is still processed exactly as it would be on its
own; the tick produces a result for all chats. -/
theorem scheduler_failure_isolated (now : Tm) (pre post : List (ChatEnv × Option Tm))
    (env : ChatEnv) (last : Option Tm)
    (hfail : chat_tick_body now env last = .error ()) :
    send_scheduled_summaries now (pre ++ (env, last) :: post)
      = send_scheduled_summaries now pre ++
          (last, false) :: send_scheduled_summaries now post ∧
    (send_scheduled_summaries now (pre ++ (env, last) :: post)).length
      = pre.length + 1 + post.length := by
  constructor
  · unfold send_scheduled_summaries
    split
    · simp [chat_tick, hfail]
    · simp
  · unfold send_scheduled_summaries
    split <;> simp <;> omega

/-- Witness for C5: a chat whose `get_chat` call raises, followed by a healthy
chat, on an in-window tick. -/
theorem scheduler_failure_isolated_witness :
    (chat_tick_body tmEight sampleEnvFail none = .error ()) ∧
    (send_scheduled_summaries tmEight ([] ++ (sampleEnvFail, none) :: [(sampleEnvOk, none)])
        = send_scheduled_summaries tmEight [] ++
            (none, false) :: send_scheduled_summaries tmEight [(sampleEnvOk, none)] ∧
      (send_scheduled_summaries tmEight
          ([] ++ (sampleEnvFail, none) :: [(sampleEnvOk, none)])).length
        = List.length ([] : List (ChatEnv × Option Tm)) + 1 + 1) :=
  ⟨rfl, scheduler_failure_isolated tmEight [] [(sampleEnvOk, none)] sampleEnvFail none rfl⟩

/-- Claim C6: on an empty or absent history, both query operations return the
empty list for all argument values (and, being total functions, never raise). -/
theorem empty_history_queries_empty (now hrs user_id : Int) (hoursOpt : Option Int)
    (limit : Nat) (history : Option (List MsgRecord))
    (h : history = none ∨ history = some []) :
    get_recent_messages now hrs limit history = [] ∧
    get_user_messages now user_id hoursOpt limit history = [] := by
  rcases h with rfl | rfl <;>
    simp [get_recent_messages, get_user_messages, pySliceLast_nil]

/-- Witness for C6 on the absent history. -/
theorem empty_history_queries_empty_witness :
    ((none : Option (List MsgRecord)) = none ∨
        (none : Option (List MsgRecord)) = some []) ∧
    (get_recent_messages 0 24 5 none = [] ∧
      get_user_messages 0 1 none 5 none = []) :=
  ⟨Or.inl rfl, empty_history_queries_empty 0 24 1 none 5 none (Or.inl rfl)⟩

/-- Claim C7 counterexample: an update whose message has text but no author
(as on a channel post) makes `store_message` evaluate `None.is_bot`, raising
instead of succeeding — so `store_message` does not succeed on every incoming
update. -/
theorem store_message_missing_author_raises :
    store_message authorlessUpdate none = .error () := by
  rfl

/-- Claim C7 (amended): for every update on which the author-flag access cannot
raise (no message, falsy text, or an author present), `store_message` never
raises: it leaves the history unchanged when the update has no message, the
message has no text, or the author is a bot, and otherwise appends exactly one
record with the author's display name, author id, text, timestamp and message
id, evicting from the head at capacity. -/
theorem store_message_amended (u : TgUpdate) (history : Option (List MsgRecord))
    (h : author_accessible u = true) :
    (storable u = false → store_message u history = .ok history) ∧
    (storable u = true → store_message u history
        = .ok (some ((history.getD [] ++ [recordOf u]).rtake MAX_MESSAGE_HISTORY))) := by
  constructor
  · intro hs
    rcases u with ⟨msg⟩
    cases msg with
    | none => rfl
    | some m =>
      rcases m with ⟨t?, u?, d, mid⟩
      cases t? with
      | none => rfl
      | some t =>
        by_cases ht : t = ""
        · simp [store_message, ht]
        · cases u? with
          | none => simp [author_accessible, pyStrFalsy, ht] at h
          | some usr =>
            simp only [storable] at hs
            simp [ht] at hs
            simp [store_message, ht, hs]
  · intro hs
    exact store_message_eq_of_storable u hs history

/-- Witness for the amended C7 at a storable update and at its own hypothesis. -/
theorem store_message_amended_witness :
    (author_accessible sampleUpdate1 = true) ∧
    ((storable sampleUpdate1 = false → store_message sampleUpdate1 none = .ok none) ∧
      (storable sampleUpdate1 = true → store_message sampleUpdate1 none
          = .ok (some ((((none : Option (List MsgRecord)).getD []) ++
              [recordOf sampleUpdate1]).rtake MAX_MESSAGE_HISTORY)))) :=
  ⟨by decide, store_message_amended sampleUpdate1 none (by decide)⟩

/-- Claim C10: `get_user_messages` with `hours = 0` behaves identically to
`hours = None` — Python truthiness skips the time filter — returning all of
the user's messages within the last `limit` entries. -/
theorem get_user_messages_hours_zero (now user_id : Int) (limit : Nat)
    (history : Option (List MsgRecord)) :
    get_user_messages now user_id (some 0) limit history
      = get_user_messages now user_id none limit history ∧
    get_user_messages now user_id (some 0) limit history
      = ((pySliceLast limit (history.getD [])).filter
          (fun m => m.user_id == user_id)).map projOut := by
  constructor
  · simp [get_user_messages]
  · simp only [get_user_messages, if_pos rfl]
    split
    · next he =>
      have : history.getD [] = [] := by simpa using he
      simp [this, pySliceLast_nil]
    · simp

/-- Claim C4: after more than 15 successful `analyze_image` turn-pairs on one
conversation id, the buffer holds exactly the 15 most recently appended pairs
(30 entries), with roles strictly alternating user, assistant, … starting with
user. -/
theorem image_history_capacity_alternation (calls : List (String × String))
    (cid : String) (hne : ∀ c ∈ calls, ¬ c.2.trim = "")
    (hlen : MAX_IMAGE_CONVERSATION_TURNS < calls.length) :
    histContents (analyze_fold calls cid []) cid
      = (calls.rtake MAX_IMAGE_CONVERSATION_TURNS).flatMap turnPair ∧
    (histContents (analyze_fold calls cid []) cid).length
      = MAX_IMAGE_CONVERSATION_TURNS * 2 ∧
    rolesAlternate (histContents (analyze_fold calls cid []) cid) = true := by
  have hmain : histContents (analyze_fold calls cid []) cid
      = (calls.rtake MAX_IMAGE_CONVERSATION_TURNS).flatMap turnPair := by
    rw [analyze_fold_contents calls cid [] hne
        (by rw [show histContents [] cid = [] from rfl]; simp)]
    rw [show histContents ([] : ImageRegistry) cid = [] from rfl, List.nil_append]
    rw [show MAX_IMAGE_CONVERSATION_TURNS * 2 = 2 * MAX_IMAGE_CONVERSATION_TURNS from
      Nat.mul_comm _ _]
    exact rtake_flatMap_turnPair calls MAX_IMAGE_CONVERSATION_TURNS
  refine ⟨hmain, ?_, ?_⟩
  · rw [hmain, length_flatMap_turnPair, length_rtake,
      Nat.min_eq_left (Nat.le_of_lt hlen), Nat.mul_comm]
  · rw [hmain]
    exact rolesAlternate_flatMap _

theorem takeWhileAux_a : Substring.takeWhileAux "a" ⟨1⟩ Char.isWhitespace ⟨0⟩ = ⟨0⟩ := by
  rw [Substring.takeWhileAux]
  simp
  intro h
  exact absurd h (by decide)

theorem takeRightWhileAux_a :
    Substring.takeRightWhileAux "a" ⟨0⟩ Char.isWhitespace ⟨1⟩ = ⟨1⟩ := by
  rw [Substring.takeRightWhileAux]
  simp
  intro h
  exact absurd h (by decide)

/-- `String.trim` is defined by well-founded recursion, which the kernel cannot
evaluate; this computes it on the literal used by the C4 witness. -/
theorem trim_a : "a".trim = "a" := by
  unfold String.trim Substring.trim
  simp only [String.toSubstring]
  rw [show "a".endPos = ⟨1⟩ from rfl]
  rw [takeWhileAux_a, takeRightWhileAux_a]
  decide

/-- Witness for C4: sixteen successful calls on a fresh conversation. -/
theorem image_history_capacity_alternation_witness :
    ((∀ c ∈ sampleCalls, ¬ c.2.trim = "") ∧
      MAX_IMAGE_CONVERSATION_TURNS < sampleCalls.length) ∧
    (histContents (analyze_fold sampleCalls "c" []) "c"
        = (sampleCalls.rtake MAX_IMAGE_CONVERSATION_TURNS).flatMap turnPair ∧
      (histContents (analyze_fold sampleCalls "c" []) "c").length
        = MAX_IMAGE_CONVERSATION_TURNS * 2 ∧
      rolesAlternate (histContents (analyze_fold sampleCalls "c" []) "c") = true) := by
  have hne : ∀ c ∈ sampleCalls, ¬ c.2.trim = "" := by
    intro c hc
    rw [List.eq_of_mem_replicate hc]
    show ¬ "a".trim = ""
    rw [trim_a]
    decide
  exact ⟨⟨hne, by decide⟩,
    image_history_capacity_alternation sampleCalls "c" hne (by decide)⟩

/-- Claim C8: when the model call fails (raises, times out, or yields an empty
stripped analysis), `analyze_image` returns the fixed apology string instead of
propagating, and every conversation's observable history is exactly what it was
before the call — the turn-pair is appended only after a successful non-empty
analysis. -/
theorem analyze_image_failure_safe (api : Except Unit String)
    (instructions conversation_id : String) (reg : ImageRegistry)
    (h : api_failed api = true) :
    (analyze_image api instructions conversation_id reg).1 = IMAGE_ANALYSIS_APOLOGY ∧
    ∀ id, histContents (analyze_image api instructions conversation_id reg).2 id
        = histContents reg id := by
  cases api with
  | error e =>
    refine ⟨rfl, ?_⟩
    intro id
    exact histContents_get_image_history reg conversation_id id
  | ok raw =>
    have hbe : (raw.trim == "") = true := by simpa [api_failed] using h
    constructor
    · simp [analyze_image, hbe]
    · intro id
      simpa [analyze_image, hbe] using histContents_get_image_history reg conversation_id id

/-- Witness for C8: a raising model call over a non-empty registry. -/
theorem analyze_image_failure_safe_witness :
    (api_failed (.error ()) = true) ∧
    ((analyze_image (.error ()) "i" "a" sampleReg).1 = IMAGE_ANALYSIS_APOLOGY ∧
      ∀ id, histContents (analyze_image (.error ()) "i" "a" sampleReg).2 id
          = histContents sampleReg id) :=
  ⟨rfl, analyze_image_failure_safe (.error ()) "i" "a" sampleReg rfl⟩

/-- Claim C9: after `reset_image_conversation id`, a subsequent
`_get_image_history id` returns the empty sequence (the id is gone from the
registry), resetting an absent id also succeeds, and every other conversation
id's stored buffer is unchanged. -/
theorem reset_image_conversation_clears (reg : ImageRegistry) (id id' : String)
    (h : id' ≠ id) :
    (get_image_history (reset_image_conversation reg id) id).2 = [] ∧
    regLookup (reset_image_conversation reg id) id = none ∧
    regLookup (reset_image_conversation reg id) id' = regLookup reg id' := by
  refine ⟨?_, regLookup_regPop_self reg id, regLookup_regPop_other reg h⟩
  rw [get_image_history_snd]
  unfold histContents reset_image_conversation
  rw [regLookup_regPop_self]
  rfl

/-- Witness for C9 on a one-entry registry. -/
theorem reset_image_conversation_clears_witness :
    ("b" ≠ "a") ∧
    ((get_image_history (reset_image_conversation sampleReg "a") "a").2 = [] ∧
      regLookup (reset_image_conversation sampleReg "a") "a" = none ∧
      regLookup (reset_image_conversation sampleReg "a") "b" = regLookup sampleReg "b") :=
  ⟨by decide, reset_image_conversation_clears sampleReg "a" "b" (by decide)⟩

end TgBot
